import Mathlib

/-!
Verification of the timestamp bot (src/main.py).

The bot's logical core is embedded here:
* the two `datetime.strptime` calls of the text command `mestamp`
  (formats `%Y/%m/%d %H:%M%z` and `%Y/%m/%d %H:%M`), modelled after CPython's
  `_strptime` module: each directive is the corresponding regex alternation,
  matched in order with the committed-choice semantics that coincides with
  Python `re` backtracking on these particular formats (every fallback
  alternative starts with a character class disjoint from the continuation);
* the calendar validation and `timezone` range check performed by `datetime`;
* the epoch-second computation `int(time_obj.timestamp())`;
* the structured (slash) command `timestamp`, which formats its integer
  arguments into the same string shape and re-parses them;
* the response construction (dropdown options, rendered `<t:..:..>` literals,
  the show-all embed fields and the error embed).

Digits and whitespace are modelled at ASCII level (`\d` = `0`-`9`,
`\s` = space/tab/newline/CR/VT/FF), matching the byte-level behaviour of the
regexes on the inputs the grammar can accept.
-/

namespace TSBot

/-- The ASCII digit character for `n ≤ 9`. -/
def digitChar : Nat → Char
  | 0 => '0' | 1 => '1' | 2 => '2' | 3 => '3' | 4 => '4'
  | 5 => '5' | 6 => '6' | 7 => '7' | 8 => '8' | 9 => '9'
  | _ => '*'

/-- Fuel-driven decimal rendering (structural recursion so that it reduces
in the kernel); `fuel` bounds the number of digits. -/
def natReprAux : Nat → Nat → List Char
  | 0, _ => []
  | fuel + 1, n =>
    if n < 10 then [digitChar n] else natReprAux fuel (n / 10) ++ [digitChar (n % 10)]

/-- Decimal representation of a natural number (most significant digit
first), as produced by Python `str`. -/
def natRepr (n : Nat) : List Char := natReprAux (n + 1) n

/-- Python `str` of a natural number. -/
def natStr (n : Nat) : String := String.mk (natRepr n)

/-- Python `str` of an integer (used by f-string interpolation). -/
def intStr (i : Int) : String :=
  if i < 0 then "-" ++ natStr i.natAbs else natStr i.natAbs

/-- ASCII whitespace recognised by the regex class `\s` and by `str.strip`. -/
def isPySpace (c : Char) : Bool :=
  c = ' ' || c = '\t' || c = '\n' || c = '\r' || c = '\x0b' || c = '\x0c'

/-- Model of Python `str.strip()`: drop whitespace from both ends. -/
def pyStrip (l : List Char) : List Char :=
  ((l.dropWhile isPySpace).reverse.dropWhile isPySpace).reverse

/-- Numeric value of an ASCII digit. -/
def digitVal (c : Char) : Nat := c.toNat - 48

/-- `%Y` directive of `_strptime`: regex `\d\d\d\d` (exactly four digits). -/
def matchY : List Char → Option (Nat × List Char)
  | c1 :: c2 :: c3 :: c4 :: rest =>
    if c1.isDigit && c2.isDigit && c3.isDigit && c4.isDigit then
      some (1000 * digitVal c1 + 100 * digitVal c2 + 10 * digitVal c3 + digitVal c4, rest)
    else none
  | _ => none

/-- `%m` directive: regex `1[0-2]|0[1-9]|[1-9]`, alternatives in order. -/
def matchMonth : List Char → Option (Nat × List Char)
  | c1 :: c2 :: rest =>
    if c1 = '1' && c2.isDigit && digitVal c2 ≤ 2 then some (10 + digitVal c2, rest)
    else if c1 = '0' && c2.isDigit && 1 ≤ digitVal c2 then some (digitVal c2, rest)
    else if c1.isDigit && 1 ≤ digitVal c1 then some (digitVal c1, c2 :: rest)
    else none
  | [c1] => if c1.isDigit && 1 ≤ digitVal c1 then some (digitVal c1, []) else none
  | [] => none

/-- `%d` directive: regex `3[0-1]|[1-2]\d|0[1-9]|[1-9]| [1-9]`, in order. -/
def matchDay : List Char → Option (Nat × List Char)
  | c1 :: c2 :: rest =>
    if c1 = '3' && c2.isDigit && digitVal c2 ≤ 1 then some (30 + digitVal c2, rest)
    else if c1.isDigit && 1 ≤ digitVal c1 && digitVal c1 ≤ 2 && c2.isDigit then
      some (10 * digitVal c1 + digitVal c2, rest)
    else if c1 = '0' && c2.isDigit && 1 ≤ digitVal c2 then some (digitVal c2, rest)
    else if c1.isDigit && 1 ≤ digitVal c1 then some (digitVal c1, c2 :: rest)
    else if c1 = ' ' && c2.isDigit && 1 ≤ digitVal c2 then some (digitVal c2, rest)
    else none
  | [c1] => if c1.isDigit && 1 ≤ digitVal c1 then some (digitVal c1, []) else none
  | [] => none

/-- `%H` directive: regex `2[0-3]|[0-1]\d|\d`, in order. -/
def matchHour : List Char → Option (Nat × List Char)
  | c1 :: c2 :: rest =>
    if c1 = '2' && c2.isDigit && digitVal c2 ≤ 3 then some (20 + digitVal c2, rest)
    else if c1.isDigit && digitVal c1 ≤ 1 && c2.isDigit then
      some (10 * digitVal c1 + digitVal c2, rest)
    else if c1.isDigit then some (digitVal c1, c2 :: rest)
    else none
  | [c1] => if c1.isDigit then some (digitVal c1, []) else none
  | [] => none

/-- `%M` directive: regex `[0-5]\d|\d`, in order. -/
def matchMinute : List Char → Option (Nat × List Char)
  | c1 :: c2 :: rest =>
    if c1.isDigit && digitVal c1 ≤ 5 && c2.isDigit then
      some (10 * digitVal c1 + digitVal c2, rest)
    else if c1.isDigit then some (digitVal c1, c2 :: rest)
    else none
  | [c1] => if c1.isDigit then some (digitVal c1, []) else none
  | [] => none

/-- Literal whitespace in the format string becomes `\s+`: one or more
whitespace characters, matched greedily (the continuation always expects a
digit, so maximal munch is exact). -/
def matchSpaces : List Char → Option (List Char)
  | c :: rest => if isPySpace c then some (rest.dropWhile isPySpace) else none
  | [] => none

/-- A literal character of the format string. -/
def matchLit (c : Char) : List Char → Option (List Char)
  | c' :: rest => if c' = c then some rest else none
  | [] => none

/-- Shape captured by the `%z` regex
`[+-]\d\d:?[0-5]\d(:?[0-5]\d(\.\d{1,6})?)?|(?-i:Z)`: either the literal `Z`,
or a signed offset with hour and minute digits, an optional colon before the
minutes, and an optional seconds group with its own optional colon and
optional fraction digits. -/
inductive ZMatch where
  | zulu : ZMatch
  | signed (neg : Bool) (hh : Nat) (colon1 : Bool) (mm : Nat)
      (sec : Option (Bool × Nat × Option (List Nat))) : ZMatch
deriving DecidableEq, Repr

/-- The fraction `\.\d{1,6}` of a `%z` offset (greedy, up to six digits). -/
def matchFrac : List Char → Option (List Nat × List Char)
  | '.' :: rest =>
    let ds := (rest.takeWhile Char.isDigit).take 6
    if ds.isEmpty then none
    else some (ds.map digitVal, rest.drop ds.length)
  | _ => none

/-- An optional literal colon (`:?`, greedy; committed consumption is exact
because the continuation always expects a digit). -/
def optColon (l : List Char) : Bool × List Char :=
  if l.head? = some ':' then (true, l.tail) else (false, l)

/-- The optional seconds group `(:?[0-5]\d(\.\d{1,6})?)?` of `%z`.
Returns `none` without consuming anything when the group does not match. -/
def matchSecGroup (l : List Char) : Option ((Bool × Nat × Option (List Nat)) × List Char) :=
  let p := optColon l
  match p.2 with
  | s1 :: s2 :: rest =>
    if s1.isDigit && digitVal s1 ≤ 5 && s2.isDigit then
      let ss := 10 * digitVal s1 + digitVal s2
      match matchFrac rest with
      | some (fr, rest') => some ((p.1, ss, some fr), rest')
      | none => some ((p.1, ss, none), rest)
    else none
  | _ => none

/-- `%z` directive: regex `[+-]\d\d:?[0-5]\d(:?[0-5]\d(\.\d{1,6})?)?|(?-i:Z)`.
Only an upper-case `Z` matches the second alternative (the `(?-i:..)` group
suppresses the surrounding `IGNORECASE`); the two alternatives start with
disjoint characters, so testing `Z` first is equivalent. -/
def matchZ : List Char → Option (ZMatch × List Char)
  | [] => none
  | c :: rest =>
    if c = 'Z' then some (.zulu, rest)
    else if c = '+' || c = '-' then
      match rest with
      | h1 :: h2 :: rest2 =>
        if h1.isDigit && h2.isDigit then
          let hh := 10 * digitVal h1 + digitVal h2
          let q := optColon rest2
          match q.2 with
          | m1 :: m2 :: rest4 =>
            if m1.isDigit && digitVal m1 ≤ 5 && m2.isDigit then
              let mm := 10 * digitVal m1 + digitVal m2
              match matchSecGroup rest4 with
              | some (g, rest5) => some (.signed (c = '-') hh q.1 mm (some g), rest5)
              | none => some (.signed (c = '-') hh q.1 mm none, rest4)
            else none
          | _ => none
        else none
      | _ => none
    else none

/-- Integer value of fraction digits, padded to microseconds
(`int(gmtoff_remainder + gmtoff_remainder_padding)` in `_strptime`). -/
def fracMicros (ds : List Nat) : Nat :=
  (ds.foldl (fun a d => 10 * a + d) 0) * 10 ^ (6 - ds.length)

/-- The `z`-group handling of `_strptime`: turns a matched offset into total
microseconds east of UTC. `none` models the `ValueError` paths: a colon before
the minutes without one before the seconds ("Inconsistent use of :"), and a
colon before the seconds only (which makes `int(z[5:7])` fail). -/
def processZ : ZMatch → Option Int
  | .zulu => some 0
  | .signed neg hh c1 mm sec =>
    match sec with
    | none => some ((if neg then -1 else 1) * ((hh * 3600 + mm * 60) * 1000000 : Nat))
    | some (c2, ss, fr) =>
      if c1 ≠ c2 then none
      else
        let micros : Nat := (hh * 3600 + mm * 60 + ss) * 1000000 + fracMicros (fr.getD [])
        some ((if neg then -1 else 1) * micros)

/-- Gregorian leap-year rule used by `datetime`. -/
def isLeapYear (y : Nat) : Bool := y % 4 = 0 && (y % 100 ≠ 0 || y % 400 = 0)

/-- Number of days in a month, as enforced by `datetime.date`. -/
def daysInMonth (y m : Nat) : Nat :=
  if m = 2 then (if isLeapYear y then 29 else 28)
  else if m = 4 || m = 6 || m = 9 || m = 11 then 30
  else 31

/-- Validation performed by the `datetime.date` construction inside
`strptime`: `MINYEAR = 1 ≤ year ≤ MAXYEAR = 9999` and the day must exist in
the month (month and day ranges beyond that are already enforced by the
regex). -/
def dateOk (y m d : Nat) : Bool :=
  1 ≤ y && y ≤ 9999 && 1 ≤ d && d ≤ daysInMonth y m

/-- A naive `datetime` as produced by `strptime` without `%z`
(seconds and microseconds are zero for the formats the bot uses). -/
structure NaiveDT where
  year : Nat
  month : Nat
  day : Nat
  hour : Nat
  minute : Nat
deriving DecidableEq, Repr

/-- An aware `datetime`: calendar fields plus the UTC offset of the attached
`timezone`, in microseconds east of UTC. -/
structure AwareDT where
  year : Nat
  month : Nat
  day : Nat
  hour : Nat
  minute : Nat
  offMicros : Int
deriving DecidableEq, Repr

/-- Upper bound of `datetime.timezone`: the offset must be strictly between
-24h and +24h (`timezone._maxoffset = timedelta(hours=24, microseconds=-1)`). -/
def tzOk (off : Int) : Bool := off.natAbs ≤ 86399999999

/-- The shared prefix `%Y/%m/%d %H:%M` of both format strings: the five
directives and the three literal separators, in sequence. -/
def matchCore (l : List Char) : Option ((Nat × Nat × Nat × Nat × Nat) × List Char) :=
  (matchY l).bind fun yl =>
  (matchLit '/' yl.2).bind fun l2 =>
  (matchMonth l2).bind fun ml =>
  (matchLit '/' ml.2).bind fun l4 =>
  (matchDay l4).bind fun dl =>
  (matchSpaces dl.2).bind fun l6 =>
  (matchHour l6).bind fun hl =>
  (matchLit ':' hl.2).bind fun l8 =>
  (matchMinute l8).bind fun mil =>
  some ((yl.1, ml.1, dl.1, hl.1, mil.1), mil.2)

/-- `datetime.strptime(s, '%Y/%m/%d %H:%M%z')`: match the whole string ("no
unconverted data remains"), then validate the calendar date and the timezone
range.  `none` models the `ValueError` raised on any failure. -/
def strptimeOffsetFmt (l : List Char) : Option AwareDT :=
  (matchCore l).bind fun cr =>
  (matchZ cr.2).bind fun zl =>
  if zl.2 = [] then
    (processZ zl.1).bind fun off =>
    if dateOk cr.1.1 cr.1.2.1 cr.1.2.2.1 && tzOk off then
      some ⟨cr.1.1, cr.1.2.1, cr.1.2.2.1, cr.1.2.2.2.1, cr.1.2.2.2.2, off⟩
    else none
  else none

/-- `datetime.strptime(s, '%Y/%m/%d %H:%M')`: as above but with no offset;
the result is a naive datetime. -/
def strptimeBasicFmt (l : List Char) : Option NaiveDT :=
  (matchCore l).bind fun cr =>
  if cr.2 = [] then
    if dateOk cr.1.1 cr.1.2.1 cr.1.2.2.1 then
      some ⟨cr.1.1, cr.1.2.1, cr.1.2.2.1, cr.1.2.2.2.1, cr.1.2.2.2.2⟩
    else none
  else none

/-- Outcome of the two-stage parse: a `PointInTime` (aware datetime) together
with the `utc_offset_used` flag, or a parse error. -/
inductive ParseOutcome where
  | ok (pt : AwareDT) (offsetProvided : Bool)
  | parseError
deriving DecidableEq, Repr

/-- `ndt.replace(tzinfo=timezone.utc)`: make a naive datetime aware at UTC. -/
def replaceUtc (ndt : NaiveDT) : AwareDT :=
  ⟨ndt.year, ndt.month, ndt.day, ndt.hour, ndt.minute, 0⟩

/-- The date-parsing logic of the text command `mestamp`
(src/main.py lines 213-225): strip the input, try the `%z` format first,
fall back to the offsetless format interpreted as UTC, and report a parse
error when both `strptime` calls raise `ValueError`. -/
def mestampParse (user_datetime : String) : ParseOutcome :=
  match strptimeOffsetFmt (pyStrip user_datetime.toList) with
  | some dt => .ok dt true
  | none =>
    match strptimeBasicFmt (pyStrip user_datetime.toList) with
    | some ndt => .ok (replaceUtc ndt) false
    | none => .parseError

/-- Days since 1970-01-01 of a proleptic-Gregorian date (the arithmetic
underlying `datetime.timestamp`), for `1 ≤ y ≤ 9999`. -/
def daysFromCivil (y m d : Nat) : Int :=
  let y' := y - (if m ≤ 2 then 1 else 0)
  let era := y' / 400
  let yoe := y' % 400
  let mp := (m + 9) % 12
  let doy := (153 * mp + 2) / 5 + (d - 1)
  let doe := 365 * yoe + yoe / 4 - yoe / 100 + doy
  ((146097 * era + doe : Nat) : Int) - 719468

/-- Seconds since the epoch of the wall-clock reading of an aware datetime,
ignoring its offset. -/
def wallSeconds (dt : AwareDT) : Int :=
  86400 * daysFromCivil dt.year dt.month dt.day + (3600 * dt.hour + 60 * dt.minute : Nat)

/-- `(time_obj - EPOCH)` in microseconds: the exact value of
`time_obj.timestamp()` (the datetime's own microseconds are zero for the
bot's formats). -/
def epochMicros (dt : AwareDT) : Int := wallSeconds dt * 1000000 - dt.offMicros

/-- `int(time_obj.timestamp())` (src/main.py line 91): Python `int()`
truncates toward zero. -/
def epoch_time (dt : AwareDT) : Int := (epochMicros dt).tdiv 1000000

/-- The `TIME_FORMAT_TEMPLATES` dict (src/main.py lines 20-28) as its ordered
list of (format-template, format-code) entries; dicts preserve insertion
order.  `\x7b`/`\x7d` are the literal braces of the Python template strings. -/
def TIME_FORMAT_TEMPLATES : List (String × String) :=
  [("\x7b:%H:%M\x7d", "t"),
   ("\x7b:%d/%m/%Y\x7d", "d"),
   ("\x7b:%d %B %Y\x7d", "D"),
   ("\x7b:%d %B %Y %H:%M\x7d", "f"),
   ("\x7b:%A, %d %B %Y %H:%M\x7d", "F")]

/-- Two-digit zero padding (`%H`, `%M`, `%d`, `%m` of `strftime`). -/
def pad2 (n : Nat) : String := if n < 10 then "0" ++ natStr n else natStr n

/-- English month names used by `%B` in the C locale. -/
def monthName (m : Nat) : String :=
  ["January", "February", "March", "April", "May", "June", "July",
   "August", "September", "October", "November", "December"].getD (m - 1) ""

/-- English weekday name of a date (`%A`): day 0 of `daysFromCivil`
(1970-01-01) is a Thursday. -/
def weekdayName (y m d : Nat) : String :=
  ["Monday", "Tuesday", "Wednesday", "Thursday", "Friday", "Saturday",
   "Sunday"].getD ((daysFromCivil y m d + 3).emod 7).toNat ""

/-- `%Y` of `strftime` on Linux (glibc): the year without padding. -/
def yearStr (y : Nat) : String := natStr y

/-- `template.format(self.time_obj)` for the five templates of
`TIME_FORMAT_TEMPLATES` (src/main.py line 97): `strftime`-style rendering of
the datetime.  Templates outside the dict never occur; they render as "". -/
def formatTemplate (tpl : String) (dt : AwareDT) : String :=
  if tpl = "\x7b:%H:%M\x7d" then pad2 dt.hour ++ ":" ++ pad2 dt.minute
  else if tpl = "\x7b:%d/%m/%Y\x7d" then
    pad2 dt.day ++ "/" ++ pad2 dt.month ++ "/" ++ yearStr dt.year
  else if tpl = "\x7b:%d %B %Y\x7d" then
    pad2 dt.day ++ " " ++ monthName dt.month ++ " " ++ yearStr dt.year
  else if tpl = "\x7b:%d %B %Y %H:%M\x7d" then
    pad2 dt.day ++ " " ++ monthName dt.month ++ " " ++ yearStr dt.year ++ " " ++
      pad2 dt.hour ++ ":" ++ pad2 dt.minute
  else if tpl = "\x7b:%A, %d %B %Y %H:%M\x7d" then
    weekdayName dt.year dt.month dt.day ++ ", " ++ pad2 dt.day ++ " " ++
      monthName dt.month ++ " " ++ yearStr dt.year ++ " " ++
      pad2 dt.hour ++ ":" ++ pad2 dt.minute
  else ""

/-- Modelled from the humanize library (external dependency, source not in
this repository): `humanize.naturaldelta` on a nonnegative timedelta given by
its `days` and `seconds` components, default arguments
(`months=True`, `minimum_unit="seconds"`).  `months` is
`int(days // 30.5)`, computed here as exact integer arithmetic. -/
def naturaldelta (days seconds : Nat) : String :=
  let years := days / 365
  let days' := days % 365
  let months := (days' * 10) / 305
  if years = 0 && days' < 1 then
    if seconds = 0 then "a moment"
    else if seconds = 1 then "a second"
    else if seconds < 60 then natStr seconds ++ " seconds"
    else if seconds < 120 then "a minute"
    else if seconds < 3600 then natStr (seconds / 60) ++ " minutes"
    else if seconds < 7200 then "an hour"
    else natStr (seconds / 3600) ++ " hours"
  else if years = 0 then
    if days' = 1 then "a day"
    else if months = 0 then natStr days' ++ " days"
    else if months = 1 then "a month"
    else natStr months ++ " months"
  else if years = 1 then
    if months = 0 && days' = 0 then "a year"
    else if months = 0 then "1 year, " ++ natStr days' ++ " days"
    else if months = 1 then "1 year, 1 month"
    else "1 year, " ++ natStr months ++ " months"
  else natStr years ++ " years"

/-- Modelled from the humanize library: `humanize.naturaltime` applied to a
`timedelta` value `v` (in microseconds).  The tense is decided by the sign of
`v` (`date = now - v`, `future = date > now`), the magnitude is rendered by
`naturaldelta` on `abs(v)`, and "a moment" becomes "now". -/
def naturaltime (deltaMicros : Int) : String :=
  let a := deltaMicros.natAbs
  let nd := naturaldelta (a / 86400000000) (a % 86400000000 / 1000000)
  if nd = "a moment" then "now"
  else if deltaMicros < 0 then nd ++ " from now"
  else nd ++ " ago"

/-- `create_relative_label` (src/main.py lines 35-40):
`humanize.naturaltime(now - user_datetime)` where `now` is the wall clock at
render time, given here in microseconds since the epoch. -/
def create_relative_label (now : Int) (dt : AwareDT) : String :=
  naturaltime (now - epochMicros dt)

/-- The dropdown option list built by `TimestampDropdown.__init__`
(src/main.py lines 93-99): a (label, value) pair per template, then the
relative option with value `R`. -/
def dropdownOptions (now : Int) (dt : AwareDT) : List (String × String) :=
  TIME_FORMAT_TEMPLATES.map (fun p => (formatTemplate p.1 dt, p.2)) ++
    [(create_relative_label now dt, "R")]

/-- `full_format_key_list` of `send_all_timestamps_embed`
(src/main.py line 149). -/
def full_format_key_list : List String := TIME_FORMAT_TEMPLATES.map Prod.snd ++ ["R"]

/-- `final_timestamp` of `TimestampDropdown.callback` (src/main.py line 110)
and `discord_stamp` of `send_all_timestamps_embed` (line 151): the rendered
Discord timestamp literal. -/
def final_timestamp (epoch : Int) (choice : String) : String :=
  "<t:" ++ intStr epoch ++ ":" ++ choice ++ ">"

/-- The (name, value) embed fields added by `send_all_timestamps_embed`
(src/main.py lines 149-154): each field shows the literal and its
backslash-escaped copy-paste form. -/
def allTimestampFields (epoch : Int) : List (String × String) :=
  full_format_key_list.map (fun k => (final_timestamp epoch k, "\\" ++ final_timestamp epoch k))

/-- Title of the single-format embed built in `TimestampDropdown.callback`
(src/main.py lines 113-115). -/
def dropdownCallbackTitle (epoch : Int) (choice : String) : String :=
  "For *__you__*, this timestamp will display as\n" ++ final_timestamp epoch choice ++
    "\nIt will be localised for everyone else! 🎉"

/-- Description of the single-format embed (src/main.py lines 116-117): the
copy-paste form is the literal preceded by a backslash. -/
def dropdownCallbackDescription (epoch : Int) (choice : String) : String :=
  "***On mobile**, long press the date/time string above to copy the format code shown below.*\n\\" ++
    final_timestamp epoch choice

/-- `warning_msg` of `TimestampDropdown.callback` (src/main.py lines 120-123). -/
def warning_msg (utc_offset_used : Bool) : String :=
  if utc_offset_used then "make sure your UTC offset (`±HHMM` *note no colon*) is correct. "
  else "make sure `HH:MM` is in UTC or you include a UTC offset (`±HHMM` *note no colon*) ."

/-- Description of the error embed built by `error_with_time_values`
(src/main.py lines 181-185); `\x27` is the apostrophe. -/
def errorGuidance : String :=
  "Make sure your input date+time is in the format " ++
  "`YYYY/MM/DD HH:MM[±HHMM]` and is actually a date that exists!\n" ++
  "e.g. `2021/08/21 22:05`, `2021/08/22 00:05+0200`, `2021/08/21 18:35-0330`\n" ++
  "Don\x27t forget: either `HH:MM` is in UTC " ++
  "or you\x27ve included a UTC-offset, `±HHMM` (*note no colon*)!"

/-- Reply payload handed to the messaging layer: either the error embed with
its guidance text, or the format-selection reply carrying the parsed
`PointInTime`, the `utc_offset_used` flag and the dropdown options built from
them.  An error reply carries no datetime and no epoch value. -/
inductive Reply where
  | errorReply (description : String)
  | successReply (content : String) (pt : AwareDT) (offsetProvided : Bool)
      (options : List (String × String))
deriving DecidableEq, Repr

/-- Message content of `send_success_response` (src/main.py lines 165-169). -/
def successContent : String :=
  "Your date passed the reality test!\n" ++
  "*NB: The final numbers and format may differ slightly from those shown in the dropdown*"

/-- `send_success_response` (src/main.py lines 160-175): reply offering the
format dropdown, with the options rendered at wall-clock time `now`. -/
def send_success_response (now : Int) (time_obj : AwareDT) (utc_offset_used : Bool) : Reply :=
  .successReply successContent time_obj utc_offset_used (dropdownOptions now time_obj)

/-- `error_with_time_values` (src/main.py lines 178-197): the error reply. -/
def error_with_time_values : Reply := .errorReply errorGuidance

/-- The `mestamp` text command (src/main.py lines 212-228): parse the raw
string, then send either the error embed or the success response. -/
def mestamp (now : Int) (user_datetime : String) : Reply :=
  match mestampParse user_datetime with
  | .ok pt flag => send_success_response now pt flag
  | .parseError => error_with_time_values

/-- `f'{n:0w}'`: Python zero-padding of an integer to `w` characters, the
sign counting toward the width. -/
def pyPad (w : Nat) (n : Int) : List Char :=
  let s := natRepr n.natAbs
  let width := w - (if n < 0 then 1 else 0)
  let body := List.replicate (width - s.length) '0' ++ s
  if n < 0 then '-' :: body else body

/-- `constructed_date_str` of the slash command (src/main.py line 241), as a
character list. -/
def constructedChars (year month day hour minutes : Int) : List Char :=
  pyPad 4 year ++ '/' :: pyPad 2 month ++ '/' :: pyPad 2 day ++ ' ' ::
    pyPad 2 hour ++ ':' :: pyPad 2 minutes

/-- `constructed_date_str` of the slash command (src/main.py line 241). -/
def constructed_date_str (year month day hour minutes : Int) : String :=
  String.mk (constructedChars year month day hour minutes)

/-- The `timestamp` slash command (src/main.py lines 233-259): format the
field values into a date string, parse it with `%z` exactly when a non-empty
offset string was supplied, make the result aware at UTC otherwise, and send
the success or error reply. -/
def timestamp (now : Int) (year month day hour minutes : Int) (offset : String) : Reply :=
  let s := constructedChars year month day hour minutes
  if offset ≠ "" then
    match strptimeOffsetFmt (s ++ offset.toList) with
    | some time_obj => send_success_response now time_obj true
    | none => error_with_time_values
  else
    match strptimeBasicFmt s with
    | some time_obj => send_success_response now (replaceUtc time_obj) false
    | none => error_with_time_values

/-- Canonical two-digit rendering of `n ≤ 99` (zero padded). -/
def canonical2 (n : Nat) : List Char := [digitChar (n / 10), digitChar (n % 10)]

/-- Canonical four-digit rendering of `n ≤ 9999` (zero padded). -/
def canonical4 (n : Nat) : List Char :=
  [digitChar (n / 1000), digitChar (n / 100 % 10), digitChar (n / 10 % 10), digitChar (n % 10)]

/-- The spec grammar `YYYY/MM/DD HH:MM`: four-digit year, two-digit month,
day, hour and minute, with the literal separators. -/
def specCoreChars (y m d h mi : Nat) : List Char :=
  canonical4 y ++ '/' :: canonical2 m ++ '/' :: canonical2 d ++ ' ' ::
    canonical2 h ++ ':' :: canonical2 mi

/-- The spec grammar `YYYY/MM/DD HH:MM±HHMM`: the core followed by a sign
and a four-digit offset with no colon. -/
def specOffsetChars (y m d h mi : Nat) (neg : Bool) (oh om : Nat) : List Char :=
  specCoreChars y m d h mi ++ (if neg then '-' else '+') :: canonical2 oh ++ canonical2 om

/-- Offset microseconds denoted by a `±HHMM` offset. -/
def specOffMicros (neg : Bool) (oh om : Nat) : Int :=
  (if neg then -1 else 1) * ((oh * 3600 + om * 60) * 1000000 : Nat)

/-- Characters a successful `%Y/%m/%d %H:%M` core match can consume: digits,
the literal separators and whitespace.  In particular no sign and no `Z`. -/
def goodChar (c : Char) : Bool := c.isDigit || c = '/' || c = ':' || isPySpace c

/-- Days-of-era start of year-of-era `yoe` (days before its March 1st within
the 400-year era). -/
def sE (yoe : Nat) : Nat := 365 * yoe + yoe / 4 - yoe / 100

/-- Length in days of the shifted (March-to-February) year-of-era `yoe`:
366 exactly when its February belongs to a leap calendar year. -/
def yearLenE (yoe : Nat) : Nat := if isLeapYear (yoe + 1) then 366 else 365

/-- The leap-day-correction count used when inverting `sE`. -/
def fE (doe : Nat) : Nat := doe - doe / 1460 + doe / 36524 - doe / 146096

/-- Inverse of `daysFromCivil` on day counts (shifted to era numbering):
recovers (year, month, day) from days since 0000-03-01. -/
def civilFromDaysNat (n : Nat) : Nat × Nat × Nat :=
  let era := n / 146097
  let doe := n % 146097
  let yoe := fE doe / 365
  let doy := doe - sE yoe
  let mp := (5 * doy + 2) / 153
  let d := doy - (153 * mp + 2) / 5 + 1
  let m := if mp < 10 then mp + 3 else mp - 9
  let y := yoe + era * 400
  (if m ≤ 2 then y + 1 else y, m, d)

/-- Inverse of `daysFromCivil`: recovers the calendar date of a day count
relative to 1970-01-01. -/
def civilFromDays (z : Int) : Nat × Nat × Nat := civilFromDaysNat (z + 719468).toNat

/-- Converting epoch seconds back to a calendar date and time of day in the
timezone `offSeconds` east of UTC (the standard civil-time decomposition,
floor division as in Python `divmod`). -/
def dateTimeFromEpoch (offSeconds e : Int) : Nat × Nat × Nat × Nat × Nat :=
  let t := e + offSeconds
  let days := t / 86400
  let sod := (t % 86400).toNat
  let c := civilFromDays days
  (c.1, c.2.1, c.2.2, sod / 3600, sod % 3600 / 60)

/-! ## Supporting lemmas -/

theorem natReprAux_eq (f1 : Nat) : ∀ f2 n, n < f1 → n < f2 → natReprAux f1 n = natReprAux f2 n := by
  induction f1 with
  | zero => intro f2 n h1 _; omega
  | succ f ih =>
    intro f2 n h1 h2
    cases f2 with
    | zero => omega
    | succ g =>
      simp only [natReprAux]
      by_cases h : n < 10
      · simp [h]
      · simp only [if_neg h]
        rw [ih g (n / 10) (by omega) (by omega)]

theorem natRepr_lt10 {n : Nat} (h : n < 10) : natRepr n = [digitChar n] := by
  simp [natRepr, natReprAux, h]

theorem natRepr_ge10 {n : Nat} (h : 10 ≤ n) :
    natRepr n = natRepr (n / 10) ++ [digitChar (n % 10)] := by
  show natReprAux (n + 1) n = _
  simp only [natReprAux, if_neg (by omega : ¬ n < 10)]
  rw [natReprAux_eq n (n / 10 + 1) (n / 10) (by omega) (by omega)]
  rfl

theorem digitChar_isDigit {k : Nat} (h : k ≤ 9) : (digitChar k).isDigit = true := by
  interval_cases k <;> decide

theorem digitVal_digitChar {k : Nat} (h : k ≤ 9) : digitVal (digitChar k) = k := by
  interval_cases k <;> decide

theorem natRepr_digits (n : Nat) : ∀ c ∈ natRepr n, c.isDigit = true := by
  induction n using Nat.strong_induction_on with
  | _ n ih =>
    by_cases h : n < 10
    · rw [natRepr_lt10 h]
      intro c hc
      simp only [List.mem_singleton] at hc
      subst hc
      exact digitChar_isDigit (by omega)
    · rw [natRepr_ge10 (by omega)]
      intro c hc
      rcases List.mem_append.mp hc with h1 | h2
      · exact ih (n / 10) (by omega) c h1
      · simp only [List.mem_singleton] at h2
        subst h2
        exact digitChar_isDigit (by omega)

theorem pad2_eq {n : Nat} (h : n ≤ 99) : pyPad 2 (n : Int) = canonical2 n := by
  have habs : ((n : Int)).natAbs = n := Int.natAbs_ofNat n
  have hneg : ¬ ((n : Int) < 0) := by omega
  by_cases h10 : n < 10
  · have h1 : n / 10 = 0 := by omega
    have h2 : n % 10 = n := by omega
    simp [pyPad, habs, hneg, natRepr_lt10 h10, canonical2, h1, h2, List.replicate, digitChar]
  · have hr : natRepr n = [digitChar (n / 10), digitChar (n % 10)] := by
      rw [natRepr_ge10 (by omega), natRepr_lt10 (by omega : n / 10 < 10)]
      rfl
    simp [pyPad, habs, hneg, hr, canonical2]

theorem pad4_eq {n : Nat} (h : n ≤ 9999) : pyPad 4 (n : Int) = canonical4 n := by
  have habs : ((n : Int)).natAbs = n := Int.natAbs_ofNat n
  have hneg : ¬ ((n : Int) < 0) := by omega
  by_cases h10 : n < 10
  · have e1 : n / 1000 = 0 := by omega
    have e2 : n / 100 % 10 = 0 := by omega
    have e3 : n / 10 % 10 = 0 := by omega
    have e4 : n % 10 = n := by omega
    simp [pyPad, habs, hneg, natRepr_lt10 h10, canonical4, e1, e2, e3, e4, List.replicate, digitChar]
  · by_cases h100 : n < 100
    · have hr : natRepr n = [digitChar (n / 10), digitChar (n % 10)] := by
        rw [natRepr_ge10 (by omega), natRepr_lt10 (by omega : n / 10 < 10)]
        rfl
      have e1 : n / 1000 = 0 := by omega
      have e2 : n / 100 % 10 = 0 := by omega
      have e3 : n / 10 % 10 = n / 10 := by omega
      simp [pyPad, habs, hneg, hr, canonical4, e1, e2, e3, List.replicate, digitChar]
    · by_cases h1000 : n < 1000
      · have hr : natRepr n = [digitChar (n / 100), digitChar (n / 10 % 10), digitChar (n % 10)] := by
          rw [natRepr_ge10 (by omega), natRepr_ge10 (by omega : 10 ≤ n / 10),
            natRepr_lt10 (by omega : n / 10 / 10 < 10)]
          have : n / 10 / 10 = n / 100 := by omega
          rw [this]
          have : n / 10 % 10 = n / 10 % 10 := rfl
          rfl
        have e1 : n / 1000 = 0 := by omega
        have e2 : n / 100 % 10 = n / 100 := by omega
        simp [pyPad, habs, hneg, hr, canonical4, e1, e2, List.replicate, digitChar]
      · have hr : natRepr n =
            [digitChar (n / 1000), digitChar (n / 100 % 10), digitChar (n / 10 % 10),
              digitChar (n % 10)] := by
          rw [natRepr_ge10 (by omega), natRepr_ge10 (by omega : 10 ≤ n / 10),
            natRepr_ge10 (by omega : 10 ≤ n / 10 / 10),
            natRepr_lt10 (by omega : n / 10 / 10 / 10 < 10)]
          have a1 : n / 10 / 10 / 10 = n / 1000 := by omega
          have a2 : n / 10 / 10 % 10 = n / 100 % 10 := by omega
          rw [a1, a2]
          rfl
        simp [pyPad, habs, hneg, hr, canonical4, List.replicate]

theorem isPySpace_digitChar {k : Nat} (h : k ≤ 9) : isPySpace (digitChar k) = false := by
  interval_cases k <;> decide

theorem digitChar_ne_colon {k : Nat} (h : k ≤ 9) : digitChar k ≠ ':' := by
  interval_cases k <;> decide

theorem digitChar_ne {k : Nat} (c : Char) (h : k ≤ 9) (hc : c.isDigit = false) :
    digitChar k ≠ c := by
  intro he
  rw [← he, digitChar_isDigit h] at hc
  cases hc

theorem matchY_canonical {y : Nat} (h : y ≤ 9999) (rest : List Char) :
    matchY (digitChar (y / 1000) :: digitChar (y / 100 % 10) :: digitChar (y / 10 % 10) ::
      digitChar (y % 10) :: rest) = some (y, rest) := by
  have d1 : y / 1000 ≤ 9 := by omega
  have d2 : y / 100 % 10 ≤ 9 := by omega
  have d3 : y / 10 % 10 ≤ 9 := by omega
  have d4 : y % 10 ≤ 9 := by omega
  simp only [matchY, digitChar_isDigit d1, digitChar_isDigit d2, digitChar_isDigit d3,
    digitChar_isDigit d4, Bool.and_self, if_true, digitVal_digitChar d1,
    digitVal_digitChar d2, digitVal_digitChar d3, digitVal_digitChar d4]
  congr 2
  omega

theorem matchMonth_canonical {m : Nat} (h1 : 1 ≤ m) (h2 : m ≤ 12) (rest : List Char) :
    matchMonth (digitChar (m / 10) :: digitChar (m % 10) :: rest) = some (m, rest) := by
  interval_cases m <;> rfl

theorem matchDay_canonical {d : Nat} (h1 : 1 ≤ d) (h2 : d ≤ 31) (rest : List Char) :
    matchDay (digitChar (d / 10) :: digitChar (d % 10) :: rest) = some (d, rest) := by
  interval_cases d <;> rfl

theorem matchHour_canonical {h : Nat} (h2 : h ≤ 23) (rest : List Char) :
    matchHour (digitChar (h / 10) :: digitChar (h % 10) :: rest) = some (h, rest) := by
  interval_cases h <;> rfl

theorem matchMinute_canonical {mi : Nat} (h2 : mi ≤ 59) (rest : List Char) :
    matchMinute (digitChar (mi / 10) :: digitChar (mi % 10) :: rest) = some (mi, rest) := by
  interval_cases mi <;> rfl

theorem matchCore_spec {y m d h mi : Nat} (hy : y ≤ 9999) (hm1 : 1 ≤ m) (hm2 : m ≤ 12)
    (hd1 : 1 ≤ d) (hd2 : d ≤ 31) (hh : h ≤ 23) (hmi : mi ≤ 59) (rest : List Char) :
    matchCore (specCoreChars y m d h mi ++ rest) = some ((y, m, d, h, mi), rest) := by
  have hsp : isPySpace (digitChar (h / 10)) = false := isPySpace_digitChar (by omega)
  simp only [specCoreChars, canonical4, canonical2, List.cons_append, List.append_assoc,
    List.nil_append]
  simp only [matchCore, Option.bind_eq_bind, matchY_canonical hy, Option.some_bind,
    matchLit, if_pos, matchMonth_canonical hm1 hm2, matchDay_canonical hd1 hd2,
    matchSpaces, List.dropWhile_cons, hsp]
  norm_num [isPySpace, matchHour_canonical hh, matchMinute_canonical hmi]

/-- On a canonical `±HHMM` tail (and nothing after it), `%z` captures the
signed four-digit offset. -/
theorem matchZ_canonical {oh om : Nat} (neg : Bool) (h1 : oh ≤ 99) (h2 : om ≤ 59) :
    matchZ ((if neg then '-' else '+') :: canonical2 oh ++ canonical2 om) =
      some (.signed neg oh false om none, []) := by
  have a1 : oh / 10 ≤ 9 := by omega
  have a2 : oh % 10 ≤ 9 := by omega
  have b1 : om / 10 ≤ 9 := by omega
  have b2 : om % 10 ≤ 9 := by omega
  have hcol : (digitChar (om / 10) :: [digitChar (om % 10)]).head? ≠ some ':' := by
    intro he
    simp only [List.head?_cons, Option.some.injEq] at he
    exact digitChar_ne ':' b1 rfl he
  have hsec : matchSecGroup [] = none := rfl
  cases neg <;>
  · simp only [canonical2, List.cons_append, List.nil_append, matchZ,
      Bool.or_self, if_true, (by decide : (('+' = '+' : Bool) || ('+' = '-' : Bool)) = true),
      (by decide : (('-' = '+' : Bool) || ('-' = '-' : Bool)) = true),
      digitChar_isDigit a1, digitChar_isDigit a2, Bool.and_self, if_pos,
      optColon, if_neg hcol, digitChar_isDigit b1, digitChar_isDigit b2,
      digitVal_digitChar a1, digitVal_digitChar a2, digitVal_digitChar b1,
      digitVal_digitChar b2, hsec]
    norm_num
    rw [if_pos (by omega : om / 10 ≤ 5)]
    have e1 : 10 * (oh / 10) + oh % 10 = oh := by omega
    have e2 : 10 * (om / 10) + om % 10 = om := by omega
    rw [e1, e2]
    rfl

/-- A string whose first and last characters are not whitespace is unchanged
by `str.strip()`. -/
theorem pyStrip_eq_of_ends {l : List Char} (h1 : ∀ c, l.head? = some c → isPySpace c = false)
    (h2 : ∀ c, l.getLast? = some c → isPySpace c = false) : pyStrip l = l := by
  unfold pyStrip
  have e1 : l.dropWhile isPySpace = l := by
    cases l with
    | nil => rfl
    | cons a t => simp [List.dropWhile_cons, h1 a rfl]
  rw [e1]
  have e2 : l.reverse.dropWhile isPySpace = l.reverse := by
    cases hr : l.reverse with
    | nil => rfl
    | cons a t =>
      have : l.getLast? = some a := by
        rw [← List.head?_reverse, hr]
        rfl
      simp [List.dropWhile_cons, h2 a this]
  rw [e2, List.reverse_reverse]

theorem daysInMonth_le (y m : Nat) : daysInMonth y m ≤ 31 := by
  unfold daysInMonth
  split_ifs <;> omega

theorem dateOk_true {y m d : Nat} (hy1 : 1 ≤ y) (hy : y ≤ 9999) (hd1 : 1 ≤ d)
    (hd2 : d ≤ daysInMonth y m) : dateOk y m d = true := by
  simp only [dateOk, Bool.and_eq_true, decide_eq_true_eq]
  exact ⟨⟨⟨hy1, hy⟩, hd1⟩, hd2⟩

/-- A strict `YYYY/MM/DD HH:MM±HHMM` string is accepted by the `%z` format
with the denoted instant. -/
theorem spec_offset_parse {y m d h mi oh om : Nat} (neg : Bool) (hy1 : 1 ≤ y)
    (hy : y ≤ 9999) (hm1 : 1 ≤ m) (hm2 : m ≤ 12) (hd1 : 1 ≤ d) (hd2 : d ≤ daysInMonth y m)
    (hh : h ≤ 23) (hmi : mi ≤ 59) (hoh : oh ≤ 23) (hom : om ≤ 59) :
    strptimeOffsetFmt (specOffsetChars y m d h mi neg oh om) =
      some ⟨y, m, d, h, mi, specOffMicros neg oh om⟩ := by
  have hd31 : d ≤ 31 := le_trans hd2 (daysInMonth_le y m)
  have hz : processZ (.signed neg oh false om none) = some (specOffMicros neg oh om) := by
    cases neg <;> rfl
  have htz : tzOk (specOffMicros neg oh om) = true := by
    cases neg <;> simp only [specOffMicros, tzOk, decide_eq_true_eq] <;>
      simp only [if_true, if_false, Bool.false_eq_true] <;> omega
  unfold strptimeOffsetFmt specOffsetChars
  simp only [List.append_assoc]
  simp only [matchCore_spec hy hm1 hm2 hd1 hd31 hh hmi, Option.bind_eq_bind,
    Option.some_bind, matchZ_canonical neg (show oh ≤ 99 by omega) hom, if_pos, hz,
    dateOk_true hy1 hy hd1 hd2, htz, Bool.and_self, if_true]

/-- A strict `YYYY/MM/DD HH:MM` string is accepted by the offsetless format
with the denoted naive datetime. -/
theorem spec_core_basic {y m d h mi : Nat} (hy1 : 1 ≤ y) (hy : y ≤ 9999) (hm1 : 1 ≤ m)
    (hm2 : m ≤ 12) (hd1 : 1 ≤ d) (hd2 : d ≤ daysInMonth y m) (hh : h ≤ 23) (hmi : mi ≤ 59) :
    strptimeBasicFmt (specCoreChars y m d h mi) = some ⟨y, m, d, h, mi⟩ := by
  have hd31 : d ≤ 31 := le_trans hd2 (daysInMonth_le y m)
  unfold strptimeBasicFmt
  rw [show specCoreChars y m d h mi = specCoreChars y m d h mi ++ [] from
    (List.append_nil _).symm]
  rw [matchCore_spec hy hm1 hm2 hd1 hd31 hh hmi]
  simp only [Option.bind_eq_bind, Option.some_bind, if_pos rfl,
    dateOk_true hy1 hy hd1 hd2, if_true]

/-- A strict `YYYY/MM/DD HH:MM` string (no offset) is rejected by the `%z`
format: the mandatory offset is missing. -/
theorem spec_core_offsetFmt_none {y m d h mi : Nat} (hy : y ≤ 9999) (hm1 : 1 ≤ m)
    (hm2 : m ≤ 12) (hd1 : 1 ≤ d) (hd2 : d ≤ 31) (hh : h ≤ 23) (hmi : mi ≤ 59) :
    strptimeOffsetFmt (specCoreChars y m d h mi) = none := by
  unfold strptimeOffsetFmt
  rw [show specCoreChars y m d h mi = specCoreChars y m d h mi ++ [] from
    (List.append_nil _).symm]
  rw [matchCore_spec hy hm1 hm2 hd1 hd2 hh hmi]
  rfl

/-- Composing two consumed-prefix decompositions. -/
theorem good_comp {l l1 l2 : List Char}
    (h1 : ∃ p, l = p ++ l1 ∧ ∀ c ∈ p, goodChar c = true)
    (h2 : ∃ p, l1 = p ++ l2 ∧ ∀ c ∈ p, goodChar c = true) :
    ∃ p, l = p ++ l2 ∧ ∀ c ∈ p, goodChar c = true := by
  obtain ⟨p1, e1, g1⟩ := h1
  obtain ⟨p2, e2, g2⟩ := h2
  refine ⟨p1 ++ p2, by rw [e1, e2, List.append_assoc], ?_⟩
  intro c hc
  rcases List.mem_append.mp hc with h | h
  · exact g1 c h
  · exact g2 c h

theorem matchY_good {l r : List Char} {v : Nat} (h : matchY l = some (v, r)) :
    ∃ p, l = p ++ r ∧ ∀ c ∈ p, goodChar c = true := by
  rcases l with _ | ⟨c1, _ | ⟨c2, _ | ⟨c3, _ | ⟨c4, rest⟩⟩⟩⟩ <;> simp only [matchY] at h
  · exact Option.noConfusion h
  · exact Option.noConfusion h
  · exact Option.noConfusion h
  · exact Option.noConfusion h
  · split_ifs at h with hc
    · obtain ⟨-, he⟩ := Prod.mk.injEq .. ▸ Option.some.inj h
      subst he
      simp only [Bool.and_eq_true] at hc
      refine ⟨[c1, c2, c3, c4], rfl, ?_⟩
      intro c hcm
      simp only [List.mem_cons, List.not_mem_nil, or_false] at hcm
      rcases hcm with rfl | rfl | rfl | rfl <;>
        simp [goodChar, hc.1.1.1, hc.1.1.2, hc.1.2, hc.2]

theorem twoDigit_good {c1 c2 : Char} {rest r : List Char} {v w : Nat}
    (h : some (v, rest) = some (w, r)) (g1 : goodChar c1 = true) (g2 : goodChar c2 = true) :
    ∃ p, c1 :: c2 :: rest = p ++ r ∧ ∀ c ∈ p, goodChar c = true := by
  obtain ⟨-, he⟩ := Prod.mk.injEq .. ▸ Option.some.inj h
  subst he
  refine ⟨[c1, c2], rfl, ?_⟩
  intro c hcm
  simp only [List.mem_cons, List.not_mem_nil, or_false] at hcm
  rcases hcm with rfl | rfl <;> assumption

theorem oneDigit_good {c1 : Char} {rest r : List Char} {v w : Nat}
    (h : some (v, rest) = some (w, r)) (g1 : goodChar c1 = true) :
    ∃ p, c1 :: rest = p ++ r ∧ ∀ c ∈ p, goodChar c = true := by
  obtain ⟨-, he⟩ := Prod.mk.injEq .. ▸ Option.some.inj h
  subst he
  refine ⟨[c1], rfl, ?_⟩
  intro c hcm
  simp only [List.mem_cons, List.not_mem_nil, or_false] at hcm
  rcases hcm with rfl
  exact g1

theorem matchMonth_good {l r : List Char} {v : Nat} (h : matchMonth l = some (v, r)) :
    ∃ p, l = p ++ r ∧ ∀ c ∈ p, goodChar c = true := by
  rcases l with _ | ⟨c1, _ | ⟨c2, rest⟩⟩ <;> simp only [matchMonth] at h
  · exact Option.noConfusion h
  · split_ifs at h with hc
    simp only [Bool.and_eq_true] at hc
    exact oneDigit_good h (by simp [goodChar, hc.1])
  · split_ifs at h with hc hc hc
    · simp only [Bool.and_eq_true] at hc
      exact twoDigit_good h (by simp [goodChar, of_decide_eq_true hc.1.1])
        (by simp [goodChar, hc.1.2])
    · simp only [Bool.and_eq_true] at hc
      exact twoDigit_good h (by simp [goodChar, of_decide_eq_true hc.1.1])
        (by simp [goodChar, hc.1.2])
    · simp only [Bool.and_eq_true] at hc
      exact oneDigit_good h (by simp [goodChar, hc.1])

theorem matchDay_good {l r : List Char} {v : Nat} (h : matchDay l = some (v, r)) :
    ∃ p, l = p ++ r ∧ ∀ c ∈ p, goodChar c = true := by
  rcases l with _ | ⟨c1, _ | ⟨c2, rest⟩⟩ <;> simp only [matchDay] at h
  · exact Option.noConfusion h
  · split_ifs at h with hc
    simp only [Bool.and_eq_true] at hc
    exact oneDigit_good h (by simp [goodChar, hc.1])
  · split_ifs at h with hc hc hc hc hc
    · simp only [Bool.and_eq_true] at hc
      exact twoDigit_good h (by simp [goodChar, of_decide_eq_true hc.1.1])
        (by simp [goodChar, hc.1.2])
    · simp only [Bool.and_eq_true] at hc
      exact twoDigit_good h (by simp [goodChar, hc.1.1.1]) (by simp [goodChar, hc.2])
    · simp only [Bool.and_eq_true] at hc
      exact twoDigit_good h (by simp [goodChar, of_decide_eq_true hc.1.1])
        (by simp [goodChar, hc.1.2])
    · simp only [Bool.and_eq_true] at hc
      exact oneDigit_good h (by simp [goodChar, hc.1])
    · simp only [Bool.and_eq_true] at hc
      exact twoDigit_good h (by simp [goodChar, isPySpace, of_decide_eq_true hc.1.1])
        (by simp [goodChar, hc.1.2])

theorem matchHour_good {l r : List Char} {v : Nat} (h : matchHour l = some (v, r)) :
    ∃ p, l = p ++ r ∧ ∀ c ∈ p, goodChar c = true := by
  rcases l with _ | ⟨c1, _ | ⟨c2, rest⟩⟩ <;> simp only [matchHour] at h
  · exact Option.noConfusion h
  · split_ifs at h with hc
    exact oneDigit_good h (by simp [goodChar, hc])
  · split_ifs at h with hc hc hc
    · simp only [Bool.and_eq_true] at hc
      exact twoDigit_good h (by simp [goodChar, of_decide_eq_true hc.1.1])
        (by simp [goodChar, hc.1.2])
    · simp only [Bool.and_eq_true] at hc
      exact twoDigit_good h (by simp [goodChar, hc.1.1]) (by simp [goodChar, hc.2])
    · exact oneDigit_good h (by simp [goodChar, hc])

theorem matchMinute_good {l r : List Char} {v : Nat} (h : matchMinute l = some (v, r)) :
    ∃ p, l = p ++ r ∧ ∀ c ∈ p, goodChar c = true := by
  rcases l with _ | ⟨c1, _ | ⟨c2, rest⟩⟩ <;> simp only [matchMinute] at h
  · exact Option.noConfusion h
  · split_ifs at h with hc
    exact oneDigit_good h (by simp [goodChar, hc])
  · split_ifs at h with hc hc
    · simp only [Bool.and_eq_true] at hc
      exact twoDigit_good h (by simp [goodChar, hc.1.1]) (by simp [goodChar, hc.2])
    · exact oneDigit_good h (by simp [goodChar, hc])

theorem matchLit_good {c0 : Char} {l r : List Char} (hg : goodChar c0 = true)
    (h : matchLit c0 l = some r) :
    ∃ p, l = p ++ r ∧ ∀ c ∈ p, goodChar c = true := by
  rcases l with _ | ⟨c1, rest⟩ <;> simp only [matchLit] at h
  · exact Option.noConfusion h
  · split_ifs at h with hc
    cases h
    refine ⟨[c1], rfl, ?_⟩
    intro c hcm
    simp only [List.mem_cons, List.not_mem_nil, or_false] at hcm
    rcases hcm with rfl
    rw [hc]
    exact hg

theorem matchSpaces_good {l r : List Char} (h : matchSpaces l = some r) :
    ∃ p, l = p ++ r ∧ ∀ c ∈ p, goodChar c = true := by
  rcases l with _ | ⟨c1, rest⟩ <;> simp only [matchSpaces] at h
  · exact Option.noConfusion h
  · split_ifs at h with hc
    cases h
    refine ⟨c1 :: rest.takeWhile isPySpace, ?_, ?_⟩
    · simp [List.takeWhile_append_dropWhile]
    · intro c hcm
      rcases List.mem_cons.mp hcm with rfl | hm
      · simp [goodChar, hc]
      · have := List.mem_takeWhile_imp hm
        simp [goodChar, this]

theorem matchCore_good {l r : List Char} {v : Nat × Nat × Nat × Nat × Nat}
    (h : matchCore l = some (v, r)) :
    ∃ p, l = p ++ r ∧ ∀ c ∈ p, goodChar c = true := by
  unfold matchCore at h
  cases hY : matchY l with
  | none => rw [hY, Option.none_bind] at h; exact Option.noConfusion h
  | some yl =>
  rw [hY, Option.some_bind] at h
  cases hL1 : matchLit '/' yl.2 with
  | none => rw [hL1, Option.none_bind] at h; exact Option.noConfusion h
  | some l2 =>
  rw [hL1, Option.some_bind] at h
  cases hM : matchMonth l2 with
  | none => rw [hM, Option.none_bind] at h; exact Option.noConfusion h
  | some ml =>
  rw [hM, Option.some_bind] at h
  cases hL2 : matchLit '/' ml.2 with
  | none => rw [hL2, Option.none_bind] at h; exact Option.noConfusion h
  | some l4 =>
  rw [hL2, Option.some_bind] at h
  cases hD : matchDay l4 with
  | none => rw [hD, Option.none_bind] at h; exact Option.noConfusion h
  | some dl =>
  rw [hD, Option.some_bind] at h
  cases hS : matchSpaces dl.2 with
  | none => rw [hS, Option.none_bind] at h; exact Option.noConfusion h
  | some l6 =>
  rw [hS, Option.some_bind] at h
  cases hH : matchHour l6 with
  | none => rw [hH, Option.none_bind] at h; exact Option.noConfusion h
  | some hl =>
  rw [hH, Option.some_bind] at h
  cases hL3 : matchLit ':' hl.2 with
  | none => rw [hL3, Option.none_bind] at h; exact Option.noConfusion h
  | some l8 =>
  rw [hL3, Option.some_bind] at h
  cases hMi : matchMinute l8 with
  | none => rw [hMi, Option.none_bind] at h; exact Option.noConfusion h
  | some mil =>
  rw [hMi, Option.some_bind] at h
  obtain ⟨-, he⟩ := Prod.mk.injEq .. ▸ Option.some.inj h
  subst he
  obtain ⟨y, l1⟩ := yl
  obtain ⟨m, l3⟩ := ml
  obtain ⟨d, l5⟩ := dl
  obtain ⟨hrv, l7⟩ := hl
  obtain ⟨mi, l9⟩ := mil
  refine good_comp (matchY_good hY) ?_
  refine good_comp (matchLit_good (by decide) hL1) ?_
  refine good_comp (matchMonth_good hM) ?_
  refine good_comp (matchLit_good (by decide) hL2) ?_
  refine good_comp (matchDay_good hD) ?_
  refine good_comp (matchSpaces_good hS) ?_
  refine good_comp (matchHour_good hH) ?_
  refine good_comp (matchLit_good (by decide) hL3) ?_
  exact matchMinute_good hMi

/-- `%z` cannot start with a character a core match could have consumed. -/
theorem matchZ_none_of_good {r : List Char} (h : ∀ c ∈ r, goodChar c = true) :
    matchZ r = none := by
  cases r with
  | nil => rfl
  | cons c t =>
    have hc := h c (List.mem_cons_self c t)
    have hZ : ¬ (c = 'Z') := by
      rintro rfl
      simp [goodChar, isPySpace] at hc
    have hpm : (decide (c = '+') || decide (c = '-')) = false := by
      rcases hp : decide (c = '+') with _ | _
      · rcases hm : decide (c = '-') with _ | _
        · rfl
        · have : c = '-' := of_decide_eq_true hm
          subst this
          simp [goodChar, isPySpace] at hc
      · have : c = '+' := of_decide_eq_true hp
        subst this
        simp [goodChar, isPySpace] at hc
    simp only [matchZ, if_neg hZ, hpm, Bool.false_eq_true, if_false]

/-- If any character of the input is outside the core character classes, the
offsetless format rejects it (a successful full match consumes only core
characters). -/
theorem strptimeBasicFmt_none_of_bad {l : List Char} {c : Char} (hc : c ∈ l)
    (hbad : goodChar c = false) : strptimeBasicFmt l = none := by
  unfold strptimeBasicFmt
  cases hM : matchCore l with
  | none => rfl
  | some vr =>
    obtain ⟨v, r⟩ := vr
    rw [Option.some_bind]
    rcases hr : r with _ | ⟨c1, t⟩
    · exfalso
      obtain ⟨p, he, hgood⟩ := matchCore_good hM
      rw [hr, List.append_nil] at he
      subst he
      rw [hgood c hc] at hbad
      cases hbad
    · simp

/-- A list of core characters is rejected by the `%z` format: either the core
match fails, or the mandatory offset cannot start. -/
theorem strptimeOffsetFmt_none_of_good {l : List Char}
    (h : ∀ c ∈ l, goodChar c = true) : strptimeOffsetFmt l = none := by
  unfold strptimeOffsetFmt
  cases hM : matchCore l with
  | none => rfl
  | some vr =>
    obtain ⟨v, r⟩ := vr
    obtain ⟨p, he, -⟩ := matchCore_good hM
    have hz : matchZ r = none := by
      refine matchZ_none_of_good ?_
      intro c hcm
      exact h c (he ▸ List.mem_append_right p hcm)
    rw [Option.some_bind, hz]
    rfl

theorem not_space_of_digit {c : Char} (h : c.isDigit = true) : isPySpace c = false := by
  cases hsp : isPySpace c
  · rfl
  · exfalso
    simp only [isPySpace, Bool.or_eq_true, decide_eq_true_eq] at hsp
    rcases hsp with ((((rfl | rfl) | rfl) | rfl) | rfl) | rfl <;> exact absurd h (by decide)

theorem natRepr_ne_nil (n : Nat) : natRepr n ≠ [] := by
  by_cases h : n < 10
  · rw [natRepr_lt10 h]
    simp
  · rw [natRepr_ge10 (by omega)]
    simp

theorem pyPad_ne_nil (w : Nat) (n : Int) : pyPad w n ≠ [] := by
  simp only [pyPad]
  split_ifs
  · simp
  · simp [natRepr_ne_nil]

theorem pyPad_no_space {w : Nat} {n : Int} : ∀ c ∈ pyPad w n, isPySpace c = false := by
  intro c hc
  simp only [pyPad] at hc
  split_ifs at hc with hn
  · rcases List.mem_cons.mp hc with rfl | hm
    · decide
    · rcases List.mem_append.mp hm with hr | hr
      · rw [List.eq_of_mem_replicate hr]
        decide
      · exact not_space_of_digit (natRepr_digits _ c hr)
  · rcases List.mem_append.mp hc with hr | hr
    · rw [List.eq_of_mem_replicate hr]
      decide
    · exact not_space_of_digit (natRepr_digits _ c hr)

theorem pyPad_digits {w : Nat} {n : Int} (hn : 0 ≤ n) : ∀ c ∈ pyPad w n, c.isDigit = true := by
  intro c hc
  simp only [pyPad, if_neg (by omega : ¬ n < 0)] at hc
  rcases List.mem_append.mp hc with hr | hr
  · rw [List.eq_of_mem_replicate hr]
    decide
  · exact natRepr_digits _ c hr

theorem constructedChars_good {y m d h mi : Int} (hy : 0 ≤ y) (hm : 0 ≤ m) (hd : 0 ≤ d)
    (hh : 0 ≤ h) (hmi : 0 ≤ mi) : ∀ c ∈ constructedChars y m d h mi, goodChar c = true := by
  intro c hc
  simp only [constructedChars, List.mem_append, List.mem_cons] at hc
  rcases hc with (((h4 | (rfl | h4)) | (rfl | h4)) | (rfl | h4)) | (rfl | h4)
  · simp [goodChar, pyPad_digits hy c h4]
  · decide
  · simp [goodChar, pyPad_digits hm c h4]
  · decide
  · simp [goodChar, pyPad_digits hd c h4]
  · decide
  · simp [goodChar, pyPad_digits hh c h4]
  · decide
  · simp [goodChar, pyPad_digits hmi c h4]

theorem constructed_head_nospace (y m d h mi : Int) (rest : List Char) :
    ∀ c, (constructedChars y m d h mi ++ rest).head? = some c → isPySpace c = false := by
  obtain ⟨c0, t0, he⟩ := List.exists_cons_of_ne_nil (pyPad_ne_nil 4 y)
  intro c hc
  have hm : c ∈ pyPad 4 y := by
    simp only [constructedChars, he, List.cons_append, List.head?_cons, Option.some.injEq]
      at hc
    rw [he, hc]
    exact List.mem_cons_self _ _
  exact pyPad_no_space c hm

theorem constructed_getLast (y m d h mi : Int) :
    (constructedChars y m d h mi).getLast? = (pyPad 2 mi).getLast? := by
  obtain ⟨c0, t0, he⟩ := List.exists_cons_of_ne_nil (pyPad_ne_nil 2 mi)
  simp only [constructedChars]
  rw [List.getLast?_append_cons, he, List.getLast?_cons_cons]

/-- The argument of the two `strptime` calls is already stripped: the
constructed string starts with a `-` or a digit and ends with a digit (of the
minute field or of the offset). -/
theorem pyStrip_constructed {y m d h mi : Int} {offl : List Char}
    (hoff : offl = [] ∨ (offl ≠ [] ∧ ∀ c, offl.getLast? = some c → isPySpace c = false)) :
    pyStrip (constructedChars y m d h mi ++ offl) = constructedChars y m d h mi ++ offl := by
  apply pyStrip_eq_of_ends
  · exact constructed_head_nospace y m d h mi offl
  · intro c hc
    rcases hoff with rfl | ⟨hne, hl⟩
    · rw [List.append_nil, constructed_getLast] at hc
      exact pyPad_no_space c (List.mem_of_mem_getLast? (Option.mem_def.mpr hc))
    · rw [List.getLast?_append_of_ne_nil _ hne] at hc
      exact hl c hc

theorem matchY_none_head {c : Char} (hc : c.isDigit = false) (t : List Char) :
    matchY (c :: t) = none := by
  rcases t with _ | ⟨c2, _ | ⟨c3, _ | ⟨c4, r⟩⟩⟩ <;> simp [matchY, hc]

theorem matchCore_none_head {c : Char} (hc : c.isDigit = false) (t : List Char) :
    matchCore (c :: t) = none := by
  unfold matchCore
  rw [matchY_none_head hc, Option.none_bind]

theorem pyPad_neg_cons {w : Nat} {n : Int} (hn : n < 0) :
    pyPad w n = '-' :: (List.replicate (w - 1 - (natRepr n.natAbs).length) '0' ++
      natRepr n.natAbs) := by
  simp [pyPad, hn]

theorem isLeapYear_mod400 {era k : Nat} :
    isLeapYear (400 * era + k) = isLeapYear k := by
  simp only [isLeapYear]
  have h4 : (400 * era + k) % 4 = k % 4 := by omega
  have h100 : (400 * era + k) % 100 = k % 100 := by omega
  have h400 : (400 * era + k) % 400 = k % 400 := by omega
  rw [h4, h100, h400]

set_option maxRecDepth 100000 in
theorem sE_yearLen_le : ∀ yoe : Fin 400, sE yoe + yearLenE yoe ≤ 146097 := by decide

set_option maxRecDepth 100000 in
theorem fE_endpoints : ∀ yoe : Fin 400,
    fE (sE yoe) / 365 = yoe ∧ fE (sE yoe + yearLenE yoe - 1) / 365 = yoe := by decide

theorem sE_yearLen_le' {yoe : Nat} (h : yoe < 400) : sE yoe + yearLenE yoe ≤ 146097 :=
  sE_yearLen_le ⟨yoe, h⟩

theorem fE_endpoints' {yoe : Nat} (h : yoe < 400) :
    fE (sE yoe) / 365 = yoe ∧ fE (sE yoe + yearLenE yoe - 1) / 365 = yoe :=
  fE_endpoints ⟨yoe, h⟩

theorem fE_mono {a b : Nat} (hab : a ≤ b) (hb : b ≤ 146096) : fE a ≤ fE b := by
  unfold fE
  omega

set_option maxRecDepth 10000 in
theorem mp_recover : ∀ mp : Fin 12, ∀ dd : Fin 31,
    (dd : Nat) < [31, 30, 31, 30, 31, 31, 30, 31, 30, 31, 31, 29].getD mp 0 →
    (5 * ((153 * (mp : Nat) + 2) / 5 + dd) + 2) / 153 = mp := by decide

theorem mp_recover' {mp dd : Nat} (hmp : mp < 12) (hdd31 : dd < 31)
    (hdd : dd < [31, 30, 31, 30, 31, 31, 30, 31, 30, 31, 31, 29].getD mp 0) :
    (5 * ((153 * mp + 2) / 5 + dd) + 2) / 153 = mp :=
  mp_recover ⟨mp, hmp⟩ ⟨dd, hdd31⟩ hdd

/-- Inversion of the era decomposition: `civilFromDaysNat` recovers
year-of-era, shifted month and day from a well-formed day count. -/
theorem inv_general (era yoe mp dd : Nat) (hyoe : yoe < 400) (hmp : mp < 12)
    (hdd : dd < [31, 30, 31, 30, 31, 31, 30, 31, 30, 31, 31, 29].getD mp 0)
    (hdoy : (153 * mp + 2) / 5 + dd < yearLenE yoe) :
    civilFromDaysNat (146097 * era + (sE yoe + ((153 * mp + 2) / 5 + dd))) =
      (if (if mp < 10 then mp + 3 else mp - 9) ≤ 2 then yoe + era * 400 + 1
        else yoe + era * 400,
       (if mp < 10 then mp + 3 else mp - 9), dd + 1) := by
  have hlen := sE_yearLen_le' hyoe
  have hdoelt : sE yoe + ((153 * mp + 2) / 5 + dd) < 146097 := by omega
  unfold civilFromDaysNat
  dsimp only
  have hera : (146097 * era + (sE yoe + ((153 * mp + 2) / 5 + dd))) / 146097 = era := by
    omega
  have hdoe : (146097 * era + (sE yoe + ((153 * mp + 2) / 5 + dd))) % 146097 =
      sE yoe + ((153 * mp + 2) / 5 + dd) := by omega
  rw [hera, hdoe]
  have hyoe' : fE (sE yoe + ((153 * mp + 2) / 5 + dd)) / 365 = yoe := by
    have h1 := (fE_endpoints' hyoe).1
    have h2 := (fE_endpoints' hyoe).2
    have m1 : fE (sE yoe) ≤ fE (sE yoe + ((153 * mp + 2) / 5 + dd)) :=
      fE_mono (by omega) (by omega)
    have m2 : fE (sE yoe + ((153 * mp + 2) / 5 + dd)) ≤ fE (sE yoe + yearLenE yoe - 1) :=
      fE_mono (by omega) (by omega)
    have d1 : fE (sE yoe) / 365 ≤
        fE (sE yoe + ((153 * mp + 2) / 5 + dd)) / 365 := Nat.div_le_div_right m1
    have d2 : fE (sE yoe + ((153 * mp + 2) / 5 + dd)) / 365 ≤
        fE (sE yoe + yearLenE yoe - 1) / 365 := Nat.div_le_div_right m2
    omega
  rw [hyoe']
  have hdoy' : sE yoe + ((153 * mp + 2) / 5 + dd) - sE yoe = (153 * mp + 2) / 5 + dd := by
    omega
  rw [hdoy']
  have htab : [31, 30, 31, 30, 31, 31, 30, 31, 30, 31, 31, 29].getD mp 0 ≤ 31 := by
    interval_cases mp <;> decide
  have hmp' : (5 * ((153 * mp + 2) / 5 + dd) + 2) / 153 = mp :=
    mp_recover' hmp (by omega) hdd
  rw [hmp']
  have hd' : (153 * mp + 2) / 5 + dd - (153 * mp + 2) / 5 + 1 = dd + 1 := by omega
  rw [hd']

/-- The calendar round-trip on day numbers: converting a valid date to its
day count and back recovers the date. -/
theorem civil_roundtrip {y m d : Nat} (hy1 : 1 ≤ y) (hy : y ≤ 9999) (hm1 : 1 ≤ m)
    (hm2 : m ≤ 12) (hd1 : 1 ≤ d) (hd2 : d ≤ daysInMonth y m) :
    civilFromDays (daysFromCivil y m d) = (y, m, d) := by
  have hshift : civilFromDays (daysFromCivil y m d) =
      civilFromDaysNat (146097 * ((y - (if m ≤ 2 then 1 else 0)) / 400) +
        (sE ((y - (if m ≤ 2 then 1 else 0)) % 400) +
          ((153 * ((m + 9) % 12) + 2) / 5 + (d - 1)))) := by
    unfold civilFromDays daysFromCivil sE
    dsimp only
    congr 1
    omega
  rw [hshift]
  have hyoe : (y - (if m ≤ 2 then 1 else 0)) % 400 < 400 := by omega
  have hmp : (m + 9) % 12 < 12 := by omega
  have htab : daysInMonth y m ≤
      [31, 30, 31, 30, 31, 31, 30, 31, 30, 31, 31, 29].getD ((m + 9) % 12) 0 := by
    interval_cases m <;> (unfold daysInMonth) <;> split_ifs <;> simp_all
  have hlen365 : 365 ≤ yearLenE ((y - (if m ≤ 2 then 1 else 0)) % 400) := by
    unfold yearLenE
    split_ifs <;> omega
  have hdoy : (153 * ((m + 9) % 12) + 2) / 5 + (d - 1) <
      yearLenE ((y - (if m ≤ 2 then 1 else 0)) % 400) := by
    by_cases hm2c : m = 2
    · subst hm2c
      have hcor : isLeapYear y = isLeapYear ((y - 1) % 400 + 1) := by
        have he : y = 400 * ((y - 1) / 400) + ((y - 1) % 400 + 1) := by omega
        conv_lhs => rw [he]
        exact isLeapYear_mod400
      have hdm : daysInMonth y 2 = if isLeapYear y then 29 else 28 := by
        unfold daysInMonth
        norm_num
      rw [hdm] at hd2
      have hylen : yearLenE ((y - 1) % 400) = if isLeapYear y then 366 else 365 := by
        unfold yearLenE
        rw [← hcor]
      have hsub : (y - (if (2 : Nat) ≤ 2 then 1 else 0)) = y - 1 := by norm_num
      rw [hsub, hylen]
      cases hL : isLeapYear y <;> rw [hL] at hd2 <;> norm_num at hd2 ⊢
      all_goals omega
    · refine lt_of_lt_of_le ?_ hlen365
      have : (153 * ((m + 9) % 12) + 2) / 5 + daysInMonth y m ≤ 365 := by
        interval_cases m
        · norm_num [daysInMonth]
        · exact absurd rfl hm2c
        all_goals norm_num [daysInMonth]
      omega
  rw [inv_general _ _ _ _ hyoe hmp (by omega) hdoy]
  have hmpm : (if (m + 9) % 12 < 10 then (m + 9) % 12 + 3 else (m + 9) % 12 - 9) = m := by
    split_ifs <;> omega
  rw [hmpm]
  have hyc : (if m ≤ 2 then (y - (if m ≤ 2 then 1 else 0)) % 400 +
      (y - (if m ≤ 2 then 1 else 0)) / 400 * 400 + 1
    else (y - (if m ≤ 2 then 1 else 0)) % 400 +
      (y - (if m ≤ 2 then 1 else 0)) / 400 * 400) = y := by
    split_ifs <;> omega
  rw [hyc]
  have hdc : d - 1 + 1 = d := by omega
  rw [hdc]
/-! ## Theorems for the claims -/

/-- C7: the two documented scenarios.  `2021/08/21 22:05` parses as UTC with
`offsetProvided = false` and epoch 1629583500, and code `F` renders
`<t:1629583500:F>`; `2021/08/21 09:55+0100` parses with the one-hour offset,
`offsetProvided = true`, epoch 1629536100, and code `t` renders
`<t:1629536100:t>`. -/
theorem c7_scenarios :
    mestampParse "2021/08/21 22:05" = .ok ⟨2021, 8, 21, 22, 5, 0⟩ false ∧
    epoch_time ⟨2021, 8, 21, 22, 5, 0⟩ = 1629583500 ∧
    final_timestamp (epoch_time ⟨2021, 8, 21, 22, 5, 0⟩) "F" = "<t:1629583500:F>" ∧
    mestampParse "2021/08/21 09:55+0100" = .ok ⟨2021, 8, 21, 9, 55, 3600000000⟩ true ∧
    epoch_time ⟨2021, 8, 21, 9, 55, 3600000000⟩ = 1629536100 ∧
    final_timestamp (epoch_time ⟨2021, 8, 21, 9, 55, 3600000000⟩) "t" = "<t:1629536100:t>" := by
  refine ⟨by decide, by decide, by decide, by decide, by decide, by decide⟩

/-- C4: for every instant and every rendering time, the dropdown offers
exactly six options whose codes are `t, d, D, f, F, R` in that order with no
duplicates (five fixed styles first, relative last), and the show-all embed
iterates over exactly that code list. -/
theorem c4_format_codes (now : Int) (dt : AwareDT) :
    (dropdownOptions now dt).map Prod.snd = ["t", "d", "D", "f", "F", "R"] ∧
    ((dropdownOptions now dt).map Prod.snd).Nodup ∧
    full_format_key_list = ["t", "d", "D", "f", "F", "R"] ∧
    (allTimestampFields (epoch_time dt)).length = 6 := by
  have h : (dropdownOptions now dt).map Prod.snd = ["t", "d", "D", "f", "F", "R"] := by
    simp [dropdownOptions, TIME_FORMAT_TEMPLATES]
  exact ⟨h, h ▸ (by decide), by decide, by simp [allTimestampFields, full_format_key_list,
    TIME_FORMAT_TEMPLATES]⟩

/-- C5: for every parsed instant and every offered code, the single-format
embed shows exactly the literal `<t:EPOCH:CODE>` (in its title) and its
copy-paste form, a backslash followed by the same literal (in its
description); the show-all embed has one field per code whose name is the
literal and whose value is the backslash-escaped literal. -/
theorem c5_wire_format (dt : AwareDT) (choice : String)
    (h : choice ∈ full_format_key_list) :
    choice ∈ ["t", "d", "D", "f", "F", "R"] ∧
    dropdownCallbackTitle (epoch_time dt) choice =
      "For *__you__*, this timestamp will display as\n" ++
        ("<t:" ++ intStr (epoch_time dt) ++ ":" ++ choice ++ ">") ++
        "\nIt will be localised for everyone else! 🎉" ∧
    dropdownCallbackDescription (epoch_time dt) choice =
      "***On mobile**, long press the date/time string above to copy the format code shown below.*\n" ++
        ("\\" ++ ("<t:" ++ intStr (epoch_time dt) ++ ":" ++ choice ++ ">")) ∧
    allTimestampFields (epoch_time dt) =
      ["t", "d", "D", "f", "F", "R"].map (fun k =>
        ("<t:" ++ intStr (epoch_time dt) ++ ":" ++ k ++ ">",
         "\\" ++ ("<t:" ++ intStr (epoch_time dt) ++ ":" ++ k ++ ">"))) := by
  refine ⟨by simpa [full_format_key_list, TIME_FORMAT_TEMPLATES] using h, ?_, ?_, ?_⟩
  · simp only [dropdownCallbackTitle, final_timestamp, String.append_assoc]
  · simp only [dropdownCallbackDescription, final_timestamp, String.append_assoc]
    rfl
  · simp only [allTimestampFields, full_format_key_list, TIME_FORMAT_TEMPLATES,
      final_timestamp, String.append_assoc]
    rfl

/-- C1: the two-stage parse.  A (trimmed) strict `YYYY/MM/DD HH:MM±HHMM`
string yields its absolute instant with `offsetProvided = true`; a strict
`YYYY/MM/DD HH:MM` string yields the instant read as UTC with
`offsetProvided = false`; the with-offset format is always tried first
(whenever it accepts, the result is its, with `offsetProvided = true`); and
the parser reports `ParseError` exactly when both formats reject. -/
theorem c1_two_stage_parse :
    (∀ (s : String) (y m d h mi oh om : Nat) (neg : Bool),
      1 ≤ y → y ≤ 9999 → 1 ≤ m → m ≤ 12 → 1 ≤ d → d ≤ daysInMonth y m →
      h ≤ 23 → mi ≤ 59 → oh ≤ 23 → om ≤ 59 →
      pyStrip s.toList = specOffsetChars y m d h mi neg oh om →
      mestampParse s = .ok ⟨y, m, d, h, mi, specOffMicros neg oh om⟩ true) ∧
    (∀ (s : String) (y m d h mi : Nat),
      1 ≤ y → y ≤ 9999 → 1 ≤ m → m ≤ 12 → 1 ≤ d → d ≤ daysInMonth y m →
      h ≤ 23 → mi ≤ 59 →
      pyStrip s.toList = specCoreChars y m d h mi →
      mestampParse s = .ok ⟨y, m, d, h, mi, 0⟩ false) ∧
    (∀ (s : String) (dt : AwareDT),
      strptimeOffsetFmt (pyStrip s.toList) = some dt → mestampParse s = .ok dt true) ∧
    (∀ s : String,
      strptimeOffsetFmt (pyStrip s.toList) = none →
      strptimeBasicFmt (pyStrip s.toList) = none →
      mestampParse s = .parseError) := by
  refine ⟨?_, ?_, ?_, ?_⟩
  · intro s y m d h mi oh om neg hy1 hy hm1 hm2 hd1 hd2 hh hmi hoh hom hstrip
    unfold mestampParse
    rw [hstrip, spec_offset_parse neg hy1 hy hm1 hm2 hd1 hd2 hh hmi hoh hom]
  · intro s y m d h mi hy1 hy hm1 hm2 hd1 hd2 hh hmi hstrip
    unfold mestampParse
    rw [hstrip,
      spec_core_offsetFmt_none hy hm1 hm2 hd1 (le_trans hd2 (daysInMonth_le y m)) hh hmi,
      spec_core_basic hy1 hy hm1 hm2 hd1 hd2 hh hmi]
    rfl
  · intro s dt hsome
    unfold mestampParse
    rw [hsome]
  · intro s h1 h2
    unfold mestampParse
    rw [h1, h2]

/-- C1 witness: the two documented inputs instantiate the grammar clauses. -/
theorem c1_two_stage_parse_witness :
    pyStrip ("2021/08/21 09:55+0100").toList = specOffsetChars 2021 8 21 9 55 false 1 0 ∧
    mestampParse "2021/08/21 09:55+0100" =
      .ok ⟨2021, 8, 21, 9, 55, specOffMicros false 1 0⟩ true ∧
    pyStrip ("2021/08/21 22:05").toList = specCoreChars 2021 8 21 22 5 ∧
    mestampParse "2021/08/21 22:05" = .ok ⟨2021, 8, 21, 22, 5, 0⟩ false :=
  ⟨by decide,
   c1_two_stage_parse.1 "2021/08/21 09:55+0100" 2021 8 21 9 55 1 0 false (by decide)
     (by decide) (by decide) (by decide) (by decide) (by decide) (by decide) (by decide)
     (by decide) (by decide) (by decide),
   by decide,
   c1_two_stage_parse.2.1 "2021/08/21 22:05" 2021 8 21 22 5 (by decide) (by decide)
     (by decide) (by decide) (by decide) (by decide) (by decide) (by decide) (by decide)⟩

/-- C2: whenever both `strptime` formats reject a string, the parser returns
`ParseError`, the handler replies with the grammar-guidance error embed, no
success reply (hence no epoch value) is produced; the listed malformed
inputs (free text, month 13, day 32, hour 24, minute 60, 30 February, wrong
separators) are all rejected. -/
theorem c2_reject_path :
    (∀ (now : Int) (s : String),
      strptimeOffsetFmt (pyStrip s.toList) = none →
      strptimeBasicFmt (pyStrip s.toList) = none →
      mestampParse s = .parseError ∧
      mestamp now s = .errorReply errorGuidance ∧
      ∀ c pt flag opts, mestamp now s ≠ .successReply c pt flag opts) ∧
    mestampParse "not a date" = .parseError ∧
    mestampParse "2021/13/01 10:00" = .parseError ∧
    mestampParse "2021/01/32 10:00" = .parseError ∧
    mestampParse "2021/01/01 24:00" = .parseError ∧
    mestampParse "2021/01/01 10:60" = .parseError ∧
    mestampParse "2021/02/30 10:00" = .parseError ∧
    mestampParse "2021-01-01 10:00" = .parseError := by
  refine ⟨?_, by decide, by decide, by decide, by decide, by decide, by decide, by decide⟩
  intro now s h1 h2
  have hp : mestampParse s = .parseError := by
    unfold mestampParse
    rw [h1, h2]
  refine ⟨hp, ?_, ?_⟩
  · unfold mestamp
    rw [hp]
    rfl
  · intro c pt flag opts
    unfold mestamp
    rw [hp]
    simp [error_with_time_values]

/-- C2 witness: the spec scenario `not a date` takes the error path. -/
theorem c2_reject_path_witness :
    strptimeOffsetFmt (pyStrip ("not a date").toList) = none ∧
    strptimeBasicFmt (pyStrip ("not a date").toList) = none ∧
    mestamp 0 "not a date" = .errorReply errorGuidance :=
  ⟨by decide, by decide,
   (c2_reject_path.1 0 "not a date" (by decide) (by decide)).2.1⟩

/-- C3 counterexample: the colon offset form `+01:00`, which the claim says
must fail both parse attempts, is in fact accepted by the `%z` attempt (with
`offsetProvided = true`), because Python `%z` also matches `±HH:MM`. -/
theorem c3_counterexample :
    mestampParse "2021/08/21 09:55+01:00" = .ok ⟨2021, 8, 21, 9, 55, 3600000000⟩ true ∧
    mestampParse "2021/08/21 09:55+01:00" ≠ .parseError :=
  ⟨by decide, by decide⟩

/-- C3 (amended): every strict sign-plus-four-digit offset `±HHMM` (hours
00-23, minutes 00-59) is accepted with `offsetProvided = true`; but `%z` also
accepts `±HH:MM`, `Z` and `±HHMMSS`; a missing sign, a minute pair above 59,
or an offset of 24 hours or more still fails both attempts. -/
theorem c3_offset_shapes :
    (∀ (s : String) (y m d h mi oh om : Nat) (neg : Bool),
      1 ≤ y → y ≤ 9999 → 1 ≤ m → m ≤ 12 → 1 ≤ d → d ≤ daysInMonth y m →
      h ≤ 23 → mi ≤ 59 → oh ≤ 23 → om ≤ 59 →
      pyStrip s.toList = specOffsetChars y m d h mi neg oh om →
      mestampParse s = .ok ⟨y, m, d, h, mi, specOffMicros neg oh om⟩ true) ∧
    mestampParse "2021/08/21 09:55+01:00" = .ok ⟨2021, 8, 21, 9, 55, 3600000000⟩ true ∧
    mestampParse "2021/08/21 09:55Z" = .ok ⟨2021, 8, 21, 9, 55, 0⟩ true ∧
    mestampParse "2021/08/21 09:55+013045" = .ok ⟨2021, 8, 21, 9, 55, 5445000000⟩ true ∧
    mestampParse "2021/08/21 09:550100" = .parseError ∧
    mestampParse "2021/08/21 09:55+0160" = .parseError ∧
    mestampParse "2021/08/21 09:55+2400" = .parseError := by
  refine ⟨?_, by decide, by decide, by decide, by decide, by decide, by decide⟩
  intro s y m d h mi oh om neg hy1 hy hm1 hm2 hd1 hd2 hh hmi hoh hom hstrip
  unfold mestampParse
  rw [hstrip, spec_offset_parse neg hy1 hy hm1 hm2 hd1 hd2 hh hmi hoh hom]

/-- C3 witness: the documented example `2021/08/21 18:35-0330` instantiates
the strict `±HHMM` clause. -/
theorem c3_offset_shapes_witness :
    pyStrip ("2021/08/21 18:35-0330").toList = specOffsetChars 2021 8 21 18 35 true 3 30 ∧
    mestampParse "2021/08/21 18:35-0330" =
      .ok ⟨2021, 8, 21, 18, 35, specOffMicros true 3 30⟩ true :=
  ⟨by decide,
   c3_offset_shapes.1 "2021/08/21 18:35-0330" 2021 8 21 18 35 3 30 true (by decide)
     (by decide) (by decide) (by decide) (by decide) (by decide) (by decide) (by decide)
     (by decide) (by decide) (by decide)⟩

/-- C8: entry-point equivalence.  For in-range fields and an offset that is
absent or of the strict `±HHMM` shape, the slash command produces exactly the
same reply as the text command given the corresponding
`YYYY/MM/DD HH:MM[±HHMM]` string, so parsing, formatting and reply building
cannot distinguish the two entry points. -/
theorem c8_entry_equivalence (now year month day hour minutes : Int) (off : String)
    (hm1 : 1 ≤ month) (hm2 : month ≤ 12) (hd1 : 1 ≤ day) (hd2 : day ≤ 31)
    (hh1 : 0 ≤ hour) (hh2 : hour ≤ 23) (hmi1 : 0 ≤ minutes) (hmi2 : minutes ≤ 59)
    (hoff : off = "" ∨ ∃ (neg : Bool) (a b c d : Nat), a ≤ 9 ∧ b ≤ 9 ∧ c ≤ 9 ∧ d ≤ 9 ∧
      off.toList = (if neg then '-' else '+') ::
        [digitChar a, digitChar b, digitChar c, digitChar d]) :
    timestamp now year month day hour minutes off =
      mestamp now (constructed_date_str year month day hour minutes ++ off) := by
  obtain ⟨offl⟩ := off
  rcases hoff with hempty | ⟨neg, a, b, c, d, ha, hb, hcn, hdn, hofflist⟩
  · -- offset absent: the text path cannot take the %z branch
    have hoffl : offl = [] := congrArg String.toList hempty
    subst hoffl
    have hstrip : pyStrip (constructedChars year month day hour minutes) =
        constructedChars year month day hour minutes := by
      have := @pyStrip_constructed year month day hour minutes [] (Or.inl rfl)
      rwa [List.append_nil] at this
    have hparse : mestampParse (constructed_date_str year month day hour minutes ++
        String.mk []) =
        (match strptimeBasicFmt (constructedChars year month day hour minutes) with
          | some ndt => ParseOutcome.ok (replaceUtc ndt) false
          | none => ParseOutcome.parseError) := by
      unfold mestampParse
      rw [show (constructed_date_str year month day hour minutes ++ String.mk []).toList =
        constructedChars year month day hour minutes ++ [] from rfl, List.append_nil, hstrip]
      by_cases hy : year < 0
      · obtain ⟨t, hst⟩ : ∃ t, constructedChars year month day hour minutes = '-' :: t :=
          ⟨_, by rw [constructedChars, pyPad_neg_cons hy]; simp only [List.cons_append]; rfl⟩
        have hO : strptimeOffsetFmt (constructedChars year month day hour minutes) = none := by
          rw [hst]
          unfold strptimeOffsetFmt
          rw [matchCore_none_head (by decide) t, Option.none_bind]
        rw [hO]
      · have hO : strptimeOffsetFmt (constructedChars year month day hour minutes) = none :=
          strptimeOffsetFmt_none_of_good (constructedChars_good (by omega) (by omega)
            (by omega) (by omega) (by omega))
        rw [hO]
    unfold timestamp mestamp
    rw [if_neg (by decide : ¬ (String.mk [] ≠ "")), hparse]
    cases hBc : strptimeBasicFmt (constructedChars year month day hour minutes) <;> rfl
  · -- offset of shape ±HHMM
    replace hofflist : offl = (if neg then '-' else '+') ::
        [digitChar a, digitChar b, digitChar c, digitChar d] := hofflist
    subst hofflist
    have hne : String.mk ((if neg then '-' else '+') ::
        [digitChar a, digitChar b, digitChar c, digitChar d]) ≠ "" :=
      fun he => List.noConfusion (congrArg String.toList he)
    have hstrip : pyStrip (constructedChars year month day hour minutes ++
        ((if neg then '-' else '+') :: [digitChar a, digitChar b, digitChar c, digitChar d])) =
        constructedChars year month day hour minutes ++
        ((if neg then '-' else '+') :: [digitChar a, digitChar b, digitChar c, digitChar d]) := by
      refine pyStrip_constructed (Or.inr ⟨by simp, ?_⟩)
      intro c0 hc0
      simp only [List.getLast?_cons_cons, List.getLast?_singleton, Option.some.injEq] at hc0
      rw [← hc0]
      exact isPySpace_digitChar hdn
    unfold timestamp mestamp mestampParse
    rw [if_pos hne,
      show (String.mk ((if neg then '-' else '+') ::
          [digitChar a, digitChar b, digitChar c, digitChar d])).toList =
        ((if neg then '-' else '+') ::
          [digitChar a, digitChar b, digitChar c, digitChar d]) from rfl,
      show (constructed_date_str year month day hour minutes ++ String.mk
        ((if neg then '-' else '+') ::
          [digitChar a, digitChar b, digitChar c, digitChar d])).toList =
        constructedChars year month day hour minutes ++
        ((if neg then '-' else '+') ::
          [digitChar a, digitChar b, digitChar c, digitChar d]) from rfl,
      hstrip]
    cases hOc : strptimeOffsetFmt (constructedChars year month day hour minutes ++
        ((if neg then '-' else '+') :: [digitChar a, digitChar b, digitChar c, digitChar d]))
      with
    | some dt => rfl
    | none =>
      have hbasic : strptimeBasicFmt (constructedChars year month day hour minutes ++
          ((if neg then '-' else '+') ::
            [digitChar a, digitChar b, digitChar c, digitChar d])) = none := by
        refine strptimeBasicFmt_none_of_bad
          (show (if neg then '-' else '+') ∈ _ from
            List.mem_append_right _ (List.mem_cons_self _ _)) ?_
        cases neg <;> decide
      rw [hbasic]

/-- C8 witness: the documented scenario fields match the text-command
string. -/
theorem c8_entry_equivalence_witness :
    (1 : Int) ≤ 8 ∧
    timestamp 0 2021 8 21 9 55 "+0100" =
      mestamp 0 (constructed_date_str 2021 8 21 9 55 ++ "+0100") :=
  ⟨by decide,
   c8_entry_equivalence 0 2021 8 21 9 55 "+0100" (by decide) (by decide) (by decide)
     (by decide) (by decide) (by decide) (by decide) (by decide)
     (Or.inr ⟨false, 0, 1, 0, 0, by omega, by omega, by omega, by omega, by decide⟩)⟩

/-- C10: for structured-command fields within the declared ranges and any
offset string, the handler always produces one of the two replies (never an
unhandled exception in this total model): the error embed exactly when the
constructed string fails to parse, as for a calendar-invalid day (30
February), a year outside `datetime`'s range, or a malformed offset; the
success reply otherwise. -/
theorem c10_slash_totality (now year month day hour minutes : Int) (offset : String)
    (hm1 : 1 ≤ month) (hm2 : month ≤ 12) (hd1 : 1 ≤ day) (hd2 : day ≤ 31)
    (hh1 : 0 ≤ hour) (hh2 : hour ≤ 23) (hmi1 : 0 ≤ minutes) (hmi2 : minutes ≤ 59) :
    (timestamp now year month day hour minutes offset = .errorReply errorGuidance ∨
      ∃ pt flag, timestamp now year month day hour minutes offset =
        .successReply successContent pt flag (dropdownOptions now pt)) ∧
    (offset = "" →
      (timestamp now year month day hour minutes offset = .errorReply errorGuidance ↔
        strptimeBasicFmt (constructedChars year month day hour minutes) = none)) ∧
    (offset ≠ "" →
      (timestamp now year month day hour minutes offset = .errorReply errorGuidance ↔
        strptimeOffsetFmt (constructedChars year month day hour minutes ++ offset.toList) =
          none)) ∧
    timestamp now 2021 2 30 10 0 "" = .errorReply errorGuidance ∧
    timestamp now 10000 1 1 0 0 "" = .errorReply errorGuidance ∧
    timestamp now 2021 2 28 10 0 "+01:0" = .errorReply errorGuidance ∧
    timestamp now 2021 2 28 10 0 "" =
      .successReply successContent ⟨2021, 2, 28, 10, 0, 0⟩ false
        (dropdownOptions now ⟨2021, 2, 28, 10, 0, 0⟩) := by
  refine ⟨?_, ?_, ?_, rfl, rfl, rfl, rfl⟩
  · unfold timestamp
    dsimp only
    split_ifs with hoffs
    · cases hO : strptimeOffsetFmt (constructedChars year month day hour minutes ++
          offset.toList) with
      | some t => exact Or.inr ⟨t, true, rfl⟩
      | none => exact Or.inl rfl
    · cases hB : strptimeBasicFmt (constructedChars year month day hour minutes) with
      | some t => exact Or.inr ⟨replaceUtc t, false, rfl⟩
      | none => exact Or.inl rfl
  · intro h0
    subst h0
    unfold timestamp
    dsimp only
    rw [if_neg (by simp)]
    cases hB : strptimeBasicFmt (constructedChars year month day hour minutes) with
    | some t => simp [send_success_response]
    | none => simp [error_with_time_values]
  · intro h0
    unfold timestamp
    dsimp only
    rw [if_pos h0]
    cases hO : strptimeOffsetFmt (constructedChars year month day hour minutes ++
        offset.toList) with
    | some t => simp [send_success_response]
    | none => simp [error_with_time_values]

/-- C10 witness: the declared ranges hold at the documented scenario and the
handler answers with one of the two replies. -/
theorem c10_slash_totality_witness :
    (1 : Int) ≤ 8 ∧
    (timestamp 0 2021 8 21 9 55 "+0100" = .errorReply errorGuidance ∨
      ∃ pt flag, timestamp 0 2021 8 21 9 55 "+0100" =
        .successReply successContent pt flag (dropdownOptions 0 pt)) :=
  ⟨by decide,
   (c10_slash_totality 0 2021 8 21 9 55 "+0100" (by decide) (by decide) (by decide)
     (by decide) (by decide) (by decide) (by decide) (by decide)).1⟩

/-- C5 witness: code `F` is one of the offered codes and the show-all fields
have the wire shape at a concrete instant. -/
theorem c5_wire_format_witness :
    "F" ∈ full_format_key_list ∧
    allTimestampFields (epoch_time ⟨2021, 8, 21, 22, 5, 0⟩) =
      ["t", "d", "D", "f", "F", "R"].map (fun k =>
        ("<t:" ++ intStr (epoch_time ⟨2021, 8, 21, 22, 5, 0⟩) ++ ":" ++ k ++ ">",
         "\\" ++ ("<t:" ++ intStr (epoch_time ⟨2021, 8, 21, 22, 5, 0⟩) ++ ":" ++ k ++ ">"))) :=
  ⟨by decide, (c5_wire_format ⟨2021, 8, 21, 22, 5, 0⟩ "F" (by decide)).2.2.2⟩

/-- C6: round-trip.  For every second-precision `PointInTime` with a valid
calendar date, converting it to integer epoch seconds and decomposing those
seconds back into a calendar date and time of day in the same UTC offset
recovers the original fields exactly. -/
theorem c6_epoch_roundtrip (dt : AwareDT) (hy1 : 1 ≤ dt.year) (hy : dt.year ≤ 9999)
    (hm1 : 1 ≤ dt.month) (hm2 : dt.month ≤ 12) (hd1 : 1 ≤ dt.day)
    (hd2 : dt.day ≤ daysInMonth dt.year dt.month) (hh : dt.hour ≤ 23) (hmi : dt.minute ≤ 59)
    (hoff : dt.offMicros % 1000000 = 0) :
    dateTimeFromEpoch (dt.offMicros / 1000000) (epoch_time dt) =
      (dt.year, dt.month, dt.day, dt.hour, dt.minute) := by
  obtain ⟨y, m, d, h, mi, off⟩ := dt
  dsimp only at hy1 hy hm1 hm2 hd1 hd2 hh hmi hoff ⊢
  have hexact : epoch_time ⟨y, m, d, h, mi, off⟩ + off / 1000000 =
      86400 * daysFromCivil y m d + (3600 * h + 60 * mi : Nat) := by
    unfold epoch_time epochMicros wallSeconds
    dsimp only
    obtain ⟨k, hk⟩ : ∃ k : Int, off = 1000000 * k := ⟨off / 1000000, by omega⟩
    subst hk
    rw [show (86400 * daysFromCivil y m d + ((3600 * h + 60 * mi : Nat) : Int)) * 1000000 -
        1000000 * k =
        1000000 * ((86400 * daysFromCivil y m d + ((3600 * h + 60 * mi : Nat) : Int)) - k)
      from by ring]
    rw [Int.mul_tdiv_cancel_left _ (by norm_num)]
    omega
  unfold dateTimeFromEpoch
  dsimp only
  rw [hexact]
  have ht1 : (86400 * daysFromCivil y m d + ((3600 * h + 60 * mi : Nat) : Int)) / 86400 =
      daysFromCivil y m d := by omega
  have ht2 : ((86400 * daysFromCivil y m d + ((3600 * h + 60 * mi : Nat) : Int)) %
      86400).toNat = 3600 * h + 60 * mi := by omega
  rw [ht1, ht2, civil_roundtrip hy1 hy hm1 hm2 hd1 hd2]
  have hh' : (3600 * h + 60 * mi) / 3600 = h := by omega
  have hmi' : (3600 * h + 60 * mi) % 3600 / 60 = mi := by omega
  rw [hh', hmi']

/-- C6 witness: the round-trip at the documented instant. -/
theorem c6_epoch_roundtrip_witness :
    dateTimeFromEpoch 0 (epoch_time ⟨2021, 8, 21, 22, 5, 0⟩) = (2021, 8, 21, 22, 5) := by
  have := c6_epoch_roundtrip ⟨2021, 8, 21, 22, 5, 0⟩ (by decide) (by decide) (by decide)
    (by decide) (by decide) (by decide) (by decide) (by decide) (by decide)
  exact this

/-- C9: the labels of the five fixed styles depend only on the instant —
rendering the same instant at two different wall-clock times yields the same
first five options — while the relative label (code `R`) also depends on the
rendering time: two renders of one instant can differ in it. -/
theorem c9_determinism_split :
    (∀ (dt : AwareDT) (now1 now2 : Int),
      (dropdownOptions now1 dt).take 5 = (dropdownOptions now2 dt).take 5) ∧
    (∃ (dt : AwareDT) (now1 now2 : Int),
      ((dropdownOptions now1 dt).map Prod.snd = (dropdownOptions now2 dt).map Prod.snd) ∧
      (dropdownOptions now1 dt).getLast? ≠ (dropdownOptions now2 dt).getLast?) := by
  constructor
  · intro dt now1 now2
    simp [dropdownOptions, TIME_FORMAT_TEMPLATES]
  · exact ⟨⟨1970, 1, 1, 0, 0, 0⟩, 7200000000, 10800000000, by decide, by decide⟩

end TSBot
